import Mathlib

/-
Verification of the ZyroAPI (NeoAPI) request pipeline against its
natural-language specification.  The framework core, lib/neoapi.js, is
embedded in the repository inside src/test/README.md after the testing
guide; the definitions below embed that code: the route-path normalizer
and group-prefix handling, the query parsing of the fast URL path, the
middleware chain driver (the next closure of _handleRequest), the error
pipeline (_handleError and _defaultErrorHandler), the parallel fan-out
helper, the response guard with the terminal send helpers, the hook
runner (_runHooks), and the error-handler registration (app.error, also
excerpted in the optimization notes).  Abstractions used: producers,
middleware and handlers are represented by the action they perform on a
given request; hook handlers by their timing shape; the wire by the
status and JSON body of the single finalized response.
-/

namespace ZyroSpec

/-- JSON values as produced by the response helpers.  Objects are ordered
association lists, matching JavaScript object key order. -/
inductive Json where
  | null
  | str (s : String)
  | num (n : Int)
  | obj (fields : List (String × Json))
  | arr (xs : List Json)

/-- The slash-collapsing loop of normalizeRoutePath: one pass over the
characters with a lastWasSlash flag, keeping the first slash of every run.
The same collapsing is what the group method's global slash-run
replacement performs. -/
def collapseSlashesGo : Bool → List Char → List Char
  | _, [] => []
  | lastWasSlash, c :: rest =>
    if c = '/' then
      if lastWasSlash then collapseSlashesGo true rest
      else '/' :: collapseSlashesGo true rest
    else c :: collapseSlashesGo false rest

/-- Collapse every run of repeated slashes to a single slash, as the
normalizeRoutePath loop and the group method's slash-run replacement do. -/
def collapseSlashes (l : List Char) : List Char :=
  collapseSlashesGo false l

/-- The leading-slash ternary of the group method and of normalizeRoutePath:
a string not starting with a slash gets one prepended. -/
def ensureLeadingSlash (l : List Char) : List Char :=
  match l with
  | '/' :: _ => l
  | _ => '/' :: l

/-- normalizeRoutePath from lib/neoapi.js: concatenate the group path part
and the subpath with a separating slash when the subpath lacks a leading
one, collapse repeated slashes, strip one trailing slash when the result
is longer than one character, and fall back to the root path when empty. -/
def normalizeRoutePath (pre sub : String) : String :=
  let result := pre.toList ++
    (match sub.toList with
     | '/' :: _ => sub.toList
     | _ => '/' :: sub.toList)
  let clean := collapseSlashes result
  let clean2 :=
    if 1 < clean.length ∧ clean.getLast? = some '/' then clean.dropLast else clean
  if clean2 = [] then "/" else String.mk clean2

/-- The new group segment computed by the group method: ensure a leading
slash, collapse slash runs, and remove one trailing slash. -/
def groupSegment (g : String) : String :=
  let collapsed := collapseSlashes (ensureLeadingSlash g.toList)
  String.mk (if collapsed.getLast? = some '/' then collapsed.dropLast else collapsed)

/-- The current group path part after entering a group: the parent part
concatenated with the new segment, slash runs collapsed, as the group
method computes it. -/
def groupPrefixOf (parent : String) (g : String) : String :=
  String.mk (collapseSlashes (parent.toList ++ (groupSegment g).toList))

/-- The final route path registered for a subpath inside a top-level group:
the group method computes the current group path part and route
registration runs normalizeRoutePath on it and the subpath. -/
def groupRegisteredPath (g sub : String) : String :=
  normalizeRoutePath (groupPrefixOf "" g) sub

/-- Claim C8: group-prefix concatenation is normalized (collapse repeated
slashes, strip trailing slash except root), so registering a route under
group prefix "/api/" with subpath "/users/" yields the same final
registered route path as group prefix "/api" with subpath "users". -/
theorem group_path_normalization :
    groupRegisteredPath "/api/" "/users/" = groupRegisteredPath "/api" "users" ∧
    groupRegisteredPath "/api/" "/users/" = "/api/users" := by
  constructor <;> rfl

/-- Split a character list at every occurrence of a separator, as the
pair iteration over a query string does. -/
def splitOnChar (sep : Char) : List Char → List (List Char)
  | [] => [[]]
  | c :: rest =>
    let r := splitOnChar sep rest
    if c = sep then [] :: r
    else
      match r with
      | [] => [[c]]
      | seg :: segs => (c :: seg) :: segs

/-- Split one query segment at its first equals sign into key and value. -/
def splitPair (pair : List Char) : List Char × List Char :=
  match pair.span (fun c => c ≠ '=') with
  | (k, []) => (k, [])
  | (k, _ :: v) => (k, v)

/-- JavaScript property assignment on the query object: an existing key
keeps its position and takes the new value, a fresh key is appended. -/
def setQueryVal : List (String × String) → String → String → List (String × String)
  | [], k, v => [(k, v)]
  | (k0, v0) :: rest, k, v =>
    if k0 = k then (k0, v) :: rest else (k0, v0) :: setQueryVal rest k v

/-- Lookup of a key in the parsed query mapping. -/
def lookupQuery : List (String × String) → String → Option String
  | [], _ => none
  | (k0, v) :: rest, k => if k0 = k then some v else lookupQuery rest k

/-- parseQuery from lib/neoapi.js: iterate the query-string pairs in order
and assign each into the query object, so a repeated key is overwritten
and only its last value is kept.  Percent-decoding of the pair iteration
is not modelled; the inputs considered here use none. -/
def parseQuery (qs : String) : List (String × String) :=
  (splitOnChar '&' qs.toList).foldl
    (fun acc seg =>
      match seg with
      | [] => acc
      | _ =>
        let kv := splitPair seg
        setQueryVal acc (String.mk kv.1) (String.mk kv.2)) []

/-- The fast URL path of _handleRequest: the request target is cut at the
first question mark; without one the pathname is the whole target and the
query mapping is empty, otherwise the remainder is fed to parseQuery. -/
def parseTarget (url : String) : String × List (String × String) :=
  match url.toList.span (fun c => c ≠ '?') with
  | (p, []) => (String.mk p, [])
  | (p, _ :: rest) => (String.mk p, parseQuery (String.mk rest))

/-- Counterexample to claim C9: the claim asserts that a repeated query key
maps to the ordered sequence of its values, with q mapping to the sequence
of a then b.  The parseQuery of the program assigns each occurrence over
the previous one, so the parsed mapping binds q to the single string b:
the first value a is lost and no ordered sequence is produced. -/
theorem query_parse_repeated_key_overwrites :
    (parseTarget "/search?q=a&q=b&x=1").2 = [("q", "b"), ("x", "1")] ∧
    lookupQuery (parseTarget "/search?q=a&q=b&x=1").2 "q" = some "b" ∧
    lookupQuery (parseTarget "/search?q=a&q=b&x=1").2 "q" ≠ some "a" := by
  exact ⟨rfl, rfl, by decide⟩

/-- Claim C9 amended: parsing the query string of a request target maps
each key to the string value of its last occurrence (a repeated key is
overwritten, not accumulated): the path /search?q=a&q=b&x=1 yields
pathname /search and a query mapping where q is the single value b and x
is the single value 1. -/
theorem query_parse_last_wins :
    parseTarget "/search?q=a&q=b&x=1" =
      ("/search", [("q", "b"), ("x", "1")]) := by
  rfl

/-- Insertion of one key into a JSON object: an existing key keeps its
position and takes the new value, a fresh key is appended, as JavaScript
property assignment and object spread do. -/
def setKey : List (String × Json) → String → Json → List (String × Json)
  | [], k, v => [(k, v)]
  | (k0, v0) :: rest, k, v =>
    if k0 = k then (k0, v) :: rest else (k0, v0) :: setKey rest k v

/-- Lookup of a key in a JSON object. -/
def getKey : List (String × Json) → String → Option Json
  | [], _ => none
  | (k0, v0) :: rest, k => if k0 = k then some v0 else getKey rest k

/-- A JSON object carries a key when lookup finds it. -/
def hasKey (o : List (String × Json)) (k : String) : Prop :=
  (getKey o k).isSome

/-- Shallow merge of one object over another, as the spread expression in
the fan-out reducer: every key of the second object is assigned into the
first in order, so the second object overrides on collision. -/
def mergeObj (acc x : List (String × Json)) : List (String × Json) :=
  x.foldl (fun a kv => setKey a kv.1 kv.2) acc

/-- Shallow merge of a sequence of objects in order, later ones overriding
earlier ones on key collision, as the fan-out reducer folds its settled
results over the empty accumulator. -/
def mergeAll (objs : List (List (String × Json))) : List (String × Json) :=
  objs.foldl mergeObj []

theorem getKey_setKey_self (a : List (String × Json)) (k : String) (v : Json) :
    getKey (setKey a k v) k = some v := by
  induction a with
  | nil => simp [setKey, getKey]
  | cons hd tl ih =>
    obtain ⟨k0, v0⟩ := hd
    by_cases h : k0 = k
    · simp [setKey, getKey, h]
    · simp [setKey, getKey, h, ih]

theorem hasKey_setKey (a : List (String × Json)) (k : String) (v : Json)
    (k2 : String) : hasKey (setKey a k v) k2 ↔ k = k2 ∨ hasKey a k2 := by
  induction a with
  | nil =>
    by_cases h : k = k2 <;> simp [hasKey, setKey, getKey, h]
  | cons hd tl ih =>
    obtain ⟨k0, v0⟩ := hd
    by_cases h0 : k0 = k
    · subst h0
      by_cases h2 : k0 = k2 <;> simp [hasKey, setKey, getKey, h2]
    · by_cases h2 : k0 = k2
      · subst h2
        simp [hasKey, setKey, getKey, h0]
      · simp only [hasKey] at ih ⊢
        simp [setKey, getKey, h0, h2, ih]

theorem hasKey_mergeObj (a x : List (String × Json)) (k2 : String) :
    hasKey (mergeObj a x) k2 ↔ hasKey a k2 ∨ hasKey x k2 := by
  induction x generalizing a with
  | nil => simp [mergeObj, hasKey, getKey]
  | cons hd tl ih =>
    obtain ⟨k0, v0⟩ := hd
    have hstep : mergeObj a ((k0, v0) :: tl) = mergeObj (setKey a k0 v0) tl := rfl
    rw [hstep, ih, hasKey_setKey]
    by_cases h2 : k0 = k2 <;> simp [hasKey, getKey, h2]

theorem hasKey_foldl_mergeObj (objs : List (List (String × Json)))
    (acc : List (String × Json)) (k2 : String) :
    hasKey (objs.foldl mergeObj acc) k2 ↔
      hasKey acc k2 ∨ ∃ o ∈ objs, hasKey o k2 := by
  induction objs generalizing acc with
  | nil => simp
  | cons o os ih =>
    rw [List.foldl_cons, ih, hasKey_mergeObj]
    simp only [List.mem_cons]
    constructor
    · rintro ((h | h) | ⟨x, hx, h⟩)
      · exact Or.inl h
      · exact Or.inr ⟨o, Or.inl rfl, h⟩
      · exact Or.inr ⟨x, Or.inr hx, h⟩
    · rintro (h | ⟨x, (rfl | hx), h⟩)
      · exact Or.inl (Or.inl h)
      · exact Or.inl (Or.inr h)
      · exact Or.inr ⟨x, hx, h⟩

theorem hasKey_mergeAll (objs : List (List (String × Json))) (k2 : String) :
    hasKey (mergeAll objs) k2 ↔ ∃ o ∈ objs, hasKey o k2 := by
  rw [mergeAll, hasKey_foldl_mergeObj]
  simp [hasKey, getKey]

/-- One inbound HTTP request as consulted by middleware and handlers. -/
structure Req where
  method : String
  path : String

/-- A structured per-request error: message, optional HTTP status code,
optional error code and optional stack, the fields the pipeline and the
default error handler read. -/
structure ZyroError where
  message : String
  statusCode : Option Nat
  code : Option String
  stack : Option String
deriving DecidableEq, Repr

/-- A thrown error reaching the catch of the chain driver: a plain Error
carries its message and stack and no status or code. -/
def normalizeThrown (msg : String) (stk : Option String) : ZyroError :=
  { message := msg, statusCode := none, code := none, stack := stk }

/-- The fallback error the chain driver raises when no step is left and no
response was produced: message Not Found - Chain Fallback, statusCode 404,
code CHAIN_FALLBACK, with whatever stack the Error constructor captures. -/
def chainFallbackError (stk : Option String) : ZyroError :=
  { message := "Not Found - Chain Fallback", statusCode := some 404,
    code := some "CHAIN_FALLBACK", stack := stk }

/-- Status selection of _defaultErrorHandler: the status code carried by
the error when it is a number at least 400, else 500. -/
def errStatus (e : ZyroError) : Nat :=
  match e.statusCode with
  | some s => if 400 ≤ s then s else 500
  | none => 500

/-- An optional field of the error body: JSON serialization drops a key
whose value is undefined, so an absent value contributes no field. -/
def optField (name : String) : Option String → List (String × Json)
  | some v => [(name, Json.str v)]
  | none => []

/-- The inner error object sent by _defaultErrorHandler: the message (with
the fallback text for an empty message), the code when present, and the
stack when present and not running in production. -/
def defaultErrorBody (isProduction : Bool) (statusCode : Nat) (e : ZyroError) :
    List (String × Json) :=
  [("message", Json.str
      (if e.message = "" then
        (if statusCode = 500 then "Internal Server Error" else "An error occurred")
      else e.message))] ++
  optField "code" e.code ++
  (if isProduction then [] else optField "stack" e.stack)

/-- A finalized response on the wire: status code and JSON body. -/
structure SentResp where
  status : Nat
  body : Json

/-- The response sent by _defaultErrorHandler when the response has not
started: the selected status and a JSON body with one error object. -/
def defaultErrorResponse (isProduction : Bool) (e : ZyroError) : SentResp :=
  { status := errStatus e,
    body := Json.obj [("error", Json.obj
      (defaultErrorBody isProduction (errStatus e) e))] }

/-- The message field inside the error object of a JSON error body. -/
def bodyErrorMessage : Json → Option Json
  | Json.obj fields =>
    match getKey fields "error" with
    | some (Json.obj efields) => getKey efields "message"
    | _ => none
  | _ => none

/-- A terminal error handler abstracted by the response it sends for an
error on a request that has not responded yet.  _handleError invokes the
currently registered handler (the default one unless app.error replaced
it). -/
def ErrHandler : Type := ZyroError → Req → SentResp

/-- The default terminal error handler as an ErrHandler. -/
def defaultErrHandler (isProduction : Bool) : ErrHandler :=
  fun e _ => defaultErrorResponse isProduction e

/-- Observable events of one request dispatch, in execution order. -/
inductive Event where
  | ranGlobal (id : Nat)
  | ranRoute (id : Nat)
  | ranHandler
  | errorPipeline (e : ZyroError)

/-- Final outcome of one dispatch: a single sent response, or a request
left pending (a step neither continued nor responded, the stall the chain
driver can only warn about). -/
inductive ExecResult where
  | sent (r : SentResp)
  | pending

/-- Number of responses a dispatch outcome puts on the wire. -/
def responsesSent : ExecResult → Nat
  | ExecResult.sent _ => 1
  | ExecResult.pending => 0

/-- What a middleware or handler step does when invoked: call its
continuation, call it with a failure, perform a terminal send, throw (a
synchronous throw or an async rejection, carrying message and stack), or
return without continuing or responding. -/
inductive StepAct where
  | next
  | nextErr (e : ZyroError)
  | send (r : SentResp)
  | throwErr (msg : String) (stk : Option String)
  | stall

/-- A registered middleware or handler: an identifier for the trace and
the action it performs on the request. -/
structure Mw where
  id : Nat
  act : Req → StepAct

/-- The error pipeline _handleError: the failure (already a structured
error here) has the onError hooks run over it best-effort, the response
status preset, and the registered terminal error handler invoked to send
the single error response; the handler-failure fallback of _handleError
is not reached since the modelled handler returns its response. -/
def handleError (eh : ErrHandler) (req : Req) (e : ZyroError) :
    List Event × ExecResult :=
  ([Event.errorPipeline e], ExecResult.sent (eh e req))

/-- The middleware-stepping behavior of the next closure in
_handleRequest, one list at a time: a step calling its continuation
advances to the rest of the chain, a failure signal or a throw is caught
and diverts to _handleError, a terminal send stops the chain (the next
fast path sees the finished response), and a silent return leaves the
request pending after a logged warning. -/
def runMwList (eh : ErrHandler) (req : Req) (ev : Nat → Event) :
    List Mw → List Event × ExecResult → List Event × ExecResult
  | [], fin => fin
  | m :: ms, fin =>
    match m.act req with
    | StepAct.next =>
      let r := runMwList eh req ev ms fin
      (ev m.id :: r.1, r.2)
    | StepAct.nextErr e =>
      let r := handleError eh req e
      (ev m.id :: r.1, r.2)
    | StepAct.send resp => ([ev m.id], ExecResult.sent resp)
    | StepAct.throwErr msg stk =>
      let r := handleError eh req (normalizeThrown msg stk)
      (ev m.id :: r.1, r.2)
    | StepAct.stall => ([ev m.id], ExecResult.pending)

/-- The handler step of the next closure (the isHandler branch): a send
finishes the request; a continuation call finds no further step and no
response, so the driver raises the chain-fallback 404 through
_handleError; a throw or failure signal is caught into _handleError; a
silent return leaves the request pending after a logged warning. -/
def runHandlerStep (eh : ErrHandler) (req : Req) (h : Mw) (stk : Option String) :
    List Event × ExecResult :=
  match h.act req with
  | StepAct.send resp => ([Event.ranHandler], ExecResult.sent resp)
  | StepAct.next =>
    (Event.ranHandler :: (handleError eh req (chainFallbackError stk)).1,
     (handleError eh req (chainFallbackError stk)).2)
  | StepAct.nextErr e =>
    (Event.ranHandler :: (handleError eh req e).1, (handleError eh req e).2)
  | StepAct.throwErr msg stk2 =>
    (Event.ranHandler :: (handleError eh req (normalizeThrown msg stk2)).1,
     (handleError eh req (normalizeThrown msg stk2)).2)
  | StepAct.stall => ([Event.ranHandler], ExecResult.pending)

/-- A resolved route as _handleRequest extracts it from the router find
result: the route-scoped middleware stored at registration and the
terminal handler. -/
structure RouteMatch where
  routeMws : List Mw
  handler : Mw

/-- Dispatch of one request by the next closure of _handleRequest: global
middleware are consumed first in attachment order; with a matched route
the route middleware then the handler follow; with no match, once the
globals are consumed no step is selected and the driver raises the
chain-fallback not-found error through _handleError, the same error path
as any other failure.  The stk argument is the stack string the Error
constructor captures at the fallback site. -/
def dispatch (eh : ErrHandler) (req : Req) (globals : List Mw)
    (found : Option RouteMatch) (stk : Option String) :
    List Event × ExecResult :=
  match found with
  | some rm =>
    runMwList eh req Event.ranGlobal globals
      (runMwList eh req Event.ranRoute rm.routeMws
        (runHandlerStep eh req rm.handler stk))
  | none =>
    runMwList eh req Event.ranGlobal globals
      (handleError eh req (chainFallbackError stk))

theorem runMwList_all_next (eh : ErrHandler) (req : Req) (ev : Nat → Event)
    (mws : List Mw) (fin : List Event × ExecResult)
    (h : ∀ m ∈ mws, m.act req = StepAct.next) :
    runMwList eh req ev mws fin = ((mws.map fun m => ev m.id) ++ fin.1, fin.2) := by
  induction mws with
  | nil => simp [runMwList]
  | cons m ms ih =>
    have hm : m.act req = StepAct.next := h m (List.mem_cons_self ..)
    have hms : ∀ x ∈ ms, x.act req = StepAct.next :=
      fun x hx => h x (List.mem_cons_of_mem _ hx)
    simp [runMwList, hm, ih hms]

/-- Claim C1: for every request that matches a registered route, the
executor runs all global middleware in attachment order, then all
route-scoped middleware in per-route registration order, then the terminal
handler, each exactly once: when every middleware invokes its continuation,
the dispatch trace is exactly the global list, then the route list, then
one handler event, followed only by error-pipeline events. -/
theorem chain_runs_globals_then_route_then_handler_once
    (eh : ErrHandler) (req : Req) (globals : List Mw) (rm : RouteMatch)
    (stk : Option String)
    (hg : ∀ m ∈ globals, m.act req = StepAct.next)
    (hr : ∀ m ∈ rm.routeMws, m.act req = StepAct.next) :
    ∃ t, (dispatch eh req globals (some rm) stk).1 =
        (globals.map fun m => Event.ranGlobal m.id) ++
        (rm.routeMws.map fun m => Event.ranRoute m.id) ++
        Event.ranHandler :: t ∧
      ∀ e ∈ t, ∃ er, e = Event.errorPipeline er := by
  simp only [dispatch]
  rw [runMwList_all_next _ _ _ _ _ hg, runMwList_all_next _ _ _ _ _ hr]
  cases hact : rm.handler.act req with
  | send resp =>
    exact ⟨[], by simp [runHandlerStep, hact], by simp⟩
  | stall =>
    exact ⟨[], by simp [runHandlerStep, hact], by simp⟩
  | next =>
    refine ⟨[Event.errorPipeline (chainFallbackError stk)],
      by simp [runHandlerStep, hact, handleError], ?_⟩
    intro x hx
    rw [List.mem_singleton] at hx
    exact ⟨chainFallbackError stk, hx⟩
  | nextErr e =>
    refine ⟨[Event.errorPipeline e],
      by simp [runHandlerStep, hact, handleError], ?_⟩
    intro x hx
    rw [List.mem_singleton] at hx
    exact ⟨e, hx⟩
  | throwErr msg stk2 =>
    refine ⟨[Event.errorPipeline (normalizeThrown msg stk2)],
      by simp [runHandlerStep, hact, handleError], ?_⟩
    intro x hx
    rw [List.mem_singleton] at hx
    exact ⟨normalizeThrown msg stk2, hx⟩

def reqDemo : Req := { method := "GET", path := "/route-middleware" }

def mwGlobalDemo : Mw := { id := 1, act := fun _ => StepAct.next }

def mwRouteDemo : Mw := { id := 2, act := fun _ => StepAct.next }

def handlerDemo : Mw :=
  { id := 3,
    act := fun _ => StepAct.send { status := 200, body := Json.obj [("ok", Json.num 1)] } }

def rmDemo : RouteMatch := { routeMws := [mwRouteDemo], handler := handlerDemo }

/-- Witness for claim C1 at a concrete route with one global and one
route-scoped middleware, under the default error handler. -/
theorem chain_runs_globals_then_route_then_handler_once_witness :
    (∀ m ∈ [mwGlobalDemo], m.act reqDemo = StepAct.next) ∧
    (∀ m ∈ rmDemo.routeMws, m.act reqDemo = StepAct.next) ∧
    ∃ t, (dispatch (defaultErrHandler false) reqDemo [mwGlobalDemo]
          (some rmDemo) none).1 =
        ([mwGlobalDemo].map fun m => Event.ranGlobal m.id) ++
        (rmDemo.routeMws.map fun m => Event.ranRoute m.id) ++
        Event.ranHandler :: t ∧
      ∀ e ∈ t, ∃ er, e = Event.errorPipeline er :=
  have hg : ∀ m ∈ [mwGlobalDemo], m.act reqDemo = StepAct.next := by
    intro m hm
    rw [List.mem_singleton] at hm
    subst hm
    rfl
  have hr : ∀ m ∈ rmDemo.routeMws, m.act reqDemo = StepAct.next := by
    intro m hm
    rw [show rmDemo.routeMws = [mwRouteDemo] from rfl, List.mem_singleton] at hm
    subst hm
    rfl
  ⟨hg, hr, chain_runs_globals_then_route_then_handler_once
    (defaultErrHandler false) reqDemo [mwGlobalDemo] rmDemo none hg hr⟩

/-- Claim C3: for every request whose method and path match no registered
route, the error pipeline runs with the not-found error carrying status
404 (through the same _handleError path as any other failure, not a
special-cased early return), and the default terminal error handler JSON
response carries that 404 status. -/
theorem no_match_runs_error_pipeline_with_404
    (req : Req) (globals : List Mw) (stk : Option String) (isProd : Bool)
    (hg : ∀ m ∈ globals, m.act req = StepAct.next) :
    (dispatch (defaultErrHandler isProd) req globals none stk).1 =
      (globals.map fun m => Event.ranGlobal m.id) ++
        [Event.errorPipeline (chainFallbackError stk)] ∧
    (chainFallbackError stk).statusCode = some 404 ∧
    (dispatch (defaultErrHandler isProd) req globals none stk).2 =
      ExecResult.sent (defaultErrorResponse isProd (chainFallbackError stk)) ∧
    (defaultErrorResponse isProd (chainFallbackError stk)).status = 404 := by
  simp only [dispatch]
  rw [runMwList_all_next _ _ _ _ _ hg]
  exact ⟨rfl, rfl, rfl, rfl⟩

def reqMissing : Req := { method := "GET", path := "/nonexistent" }

/-- Witness for claim C3 at a concrete unmatched request with no global
middleware. -/
theorem no_match_runs_error_pipeline_with_404_witness :
    (∀ m ∈ ([] : List Mw), m.act reqMissing = StepAct.next) ∧
    ((dispatch (defaultErrHandler false) reqMissing [] none none).1 =
      (([] : List Mw).map fun m => Event.ranGlobal m.id) ++
        [Event.errorPipeline (chainFallbackError none)] ∧
    (chainFallbackError none).statusCode = some 404 ∧
    (dispatch (defaultErrHandler false) reqMissing [] none none).2 =
      ExecResult.sent (defaultErrorResponse false (chainFallbackError none)) ∧
    (defaultErrorResponse false (chainFallbackError none)).status = 404) :=
  have hg : ∀ m ∈ ([] : List Mw), m.act reqMissing = StepAct.next := by simp
  ⟨hg, no_match_runs_error_pipeline_with_404 reqMissing [] none false hg⟩

/-- Claim C7: an unhandled synchronous throw (and likewise an async
rejection, both caught by the same catch of the chain driver) inside a
matched route handler produces exactly one response, with status 500 and
a JSON body whose error object carries the thrown message; the executor
always yields this sent response instead of propagating the exception, so
the process does not crash. -/
theorem handler_throw_produces_single_500_response
    (req : Req) (globals : List Mw) (rm : RouteMatch) (msg : String)
    (stk stk2 : Option String) (isProd : Bool)
    (hg : ∀ m ∈ globals, m.act req = StepAct.next)
    (hr : ∀ m ∈ rm.routeMws, m.act req = StepAct.next)
    (hh : rm.handler.act req = StepAct.throwErr msg stk2)
    (hmsg : msg ≠ "") :
    (dispatch (defaultErrHandler isProd) req globals (some rm) stk).2 =
      ExecResult.sent (defaultErrorResponse isProd (normalizeThrown msg stk2)) ∧
    (defaultErrorResponse isProd (normalizeThrown msg stk2)).status = 500 ∧
    bodyErrorMessage (defaultErrorResponse isProd (normalizeThrown msg stk2)).body =
      some (Json.str msg) ∧
    responsesSent (dispatch (defaultErrHandler isProd) req globals (some rm) stk).2
      = 1 := by
  simp only [dispatch]
  rw [runMwList_all_next _ _ _ _ _ hg, runMwList_all_next _ _ _ _ _ hr]
  refine ⟨?_, rfl, ?_, ?_⟩
  · simp [runHandlerStep, hh, handleError, defaultErrHandler]
  · simp [bodyErrorMessage, defaultErrorResponse, defaultErrorBody, errStatus,
      normalizeThrown, getKey, optField, hmsg]
  · simp [runHandlerStep, hh, handleError, responsesSent]

def reqBoom : Req := { method := "GET", path := "/error-sync" }

def handlerBoom : Mw :=
  { id := 7, act := fun _ => StepAct.throwErr "Sync error" none }

def rmBoom : RouteMatch := { routeMws := [], handler := handlerBoom }

/-- Witness for claim C7 at a concrete route whose handler throws the test
suite message. -/
theorem handler_throw_produces_single_500_response_witness :
    (∀ m ∈ ([] : List Mw), m.act reqBoom = StepAct.next) ∧
    (∀ m ∈ rmBoom.routeMws, m.act reqBoom = StepAct.next) ∧
    rmBoom.handler.act reqBoom = StepAct.throwErr "Sync error" none ∧
    "Sync error" ≠ "" ∧
    ((dispatch (defaultErrHandler false) reqBoom [] (some rmBoom) none).2 =
      ExecResult.sent (defaultErrorResponse false
        (normalizeThrown "Sync error" none)) ∧
    (defaultErrorResponse false (normalizeThrown "Sync error" none)).status = 500 ∧
    bodyErrorMessage (defaultErrorResponse false
        (normalizeThrown "Sync error" none)).body = some (Json.str "Sync error") ∧
    responsesSent
      (dispatch (defaultErrHandler false) reqBoom [] (some rmBoom) none).2 = 1) :=
  have hg : ∀ m ∈ ([] : List Mw), m.act reqBoom = StepAct.next := by simp
  have hr : ∀ m ∈ rmBoom.routeMws, m.act reqBoom = StepAct.next := by
    intro m hm
    rw [show rmBoom.routeMws = [] from rfl] at hm
    cases hm
  have hh : rmBoom.handler.act reqBoom = StepAct.throwErr "Sync error" none := rfl
  have hmsg : "Sync error" ≠ "" := by decide
  ⟨hg, hr, hh, hmsg,
    handler_throw_produces_single_500_response reqBoom [] rmBoom "Sync error"
      none none false hg hr hh hmsg⟩

/-- Outcome of one settled fan-out producer: resolution (with an object,
or with no contributing data: null, undefined or a non-object), or
rejection with a failure message.  The per-producer catch in app.parallel
turns a rejection into the internal error marker. -/
inductive ProducerResult where
  | ok (data : Option (List (String × Json)))
  | failed (msg : String)

/-- A fan-out producer: an asynchronous data fetcher invoked with the
request, as the handler list of app.parallel. -/
def Producer : Type := Req → ProducerResult

/-- The object contributed by a settled producer in the fan-out reducer:
only a resolution with a non-null object passes the object-and-not-marker
test and is spread into the accumulator. -/
def okData : ProducerResult → Option (List (String × Json))
  | ProducerResult.ok (some o) => some o
  | ProducerResult.ok none => none
  | ProducerResult.failed _ => none

/-- The failure message logged for a settled producer when its promise
rejected and the per-producer catch replaced it with the error marker. -/
def failMsg : ProducerResult → Option String
  | ProducerResult.failed m => some m
  | ProducerResult.ok _ => none

/-- app.parallel from lib/neoapi.js: every handler in the list is launched
against the same request with its own catch, so the joined await settles
them all and never rejects on one failure; the reducer spreads each
settled non-marker object over the accumulator in input order; rejected
producers contribute nothing and their messages are logged; the
accumulator is sent as the JSON response at the default 200 status.
Producers must not touch the response, so each settled outcome is a
function of the request alone. -/
def runParallel (producers : List Producer) (req : Req) :
    SentResp × List String :=
  let settled := producers.map (fun p => p req)
  ({ status := 200, body := Json.obj (mergeAll (settled.filterMap okData)) },
   settled.filterMap failMsg)

/-- The handler returned by app.parallel performs a terminal JSON send of
the merged accumulator; individual producer failures are logged, never
signalled to the error pipeline (its next-with-error call is reserved for
a failure of the orchestration itself, which the modelled merge and send
cannot produce). -/
def parallelAct (producers : List Producer) : Req → StepAct :=
  fun req => StepAct.send (runParallel producers req).1

theorem okData_isSome_failMsg_none (r : ProducerResult)
    (h : (okData r).isSome = true) : failMsg r = none := by
  cases r with
  | ok d => rfl
  | failed m => simp [okData] at h

/-- Claim C4: the fan-out helper settles every producer and never
short-circuits: when the producer between pre and post fails and all
others succeed with objects, the handler still performs a normal terminal
send with status 200 whose JSON body is the shallow merge of exactly the
successful producers' objects in input order; a key occurs in the merged
body exactly when some successful producer contributed it, the failed
producer's message is logged (the only logged failure), and no producer
failure reaches the error pipeline. -/
theorem parallel_fanout_merges_successes_skips_failure
    (req : Req) (pre post : List Producer) (bad : Producer) (badMsg : String)
    (hbad : bad req = ProducerResult.failed badMsg)
    (hpre : ∀ p ∈ pre, (okData (p req)).isSome = true)
    (hpost : ∀ p ∈ post, (okData (p req)).isSome = true) :
    parallelAct (pre ++ bad :: post) req =
      StepAct.send (runParallel (pre ++ bad :: post) req).1 ∧
    (runParallel (pre ++ bad :: post) req).1.status = 200 ∧
    (runParallel (pre ++ bad :: post) req).1.body =
      Json.obj (mergeAll ((pre.map fun p => p req).filterMap okData ++
        (post.map fun p => p req).filterMap okData)) ∧
    (∀ k, hasKey (mergeAll ((pre.map fun p => p req).filterMap okData ++
          (post.map fun p => p req).filterMap okData)) k ↔
        ∃ o ∈ (pre.map fun p => p req).filterMap okData ++
          (post.map fun p => p req).filterMap okData, hasKey o k) ∧
    (runParallel (pre ++ bad :: post) req).2 = [badMsg] := by
  have hset : ((pre ++ bad :: post).map fun p => p req).filterMap okData =
      (pre.map fun p => p req).filterMap okData ++
        (post.map fun p => p req).filterMap okData := by
    rw [List.map_append, List.map_cons, List.filterMap_append, List.filterMap_cons]
    rw [hbad]
    rfl
  have hfailpre : (pre.map fun p => p req).filterMap failMsg = [] := by
    rw [List.filterMap_eq_nil_iff]
    intro a ha
    rw [List.mem_map] at ha
    obtain ⟨p, hp, rfl⟩ := ha
    exact okData_isSome_failMsg_none _ (hpre p hp)
  have hfailpost : (post.map fun p => p req).filterMap failMsg = [] := by
    rw [List.filterMap_eq_nil_iff]
    intro a ha
    rw [List.mem_map] at ha
    obtain ⟨p, hp, rfl⟩ := ha
    exact okData_isSome_failMsg_none _ (hpost p hp)
  refine ⟨rfl, rfl, ?_, fun k => hasKey_mergeAll _ k, ?_⟩
  · show Json.obj (mergeAll (((pre ++ bad :: post).map fun p => p req).filterMap okData)) = _
    rw [hset]
  · show ((pre ++ bad :: post).map fun p => p req).filterMap failMsg = [badMsg]
    rw [List.map_append, List.map_cons, List.filterMap_append, List.filterMap_cons]
    rw [hbad, hfailpre, hfailpost]
    rfl

def producerUser : Producer :=
  fun _ => ProducerResult.ok (some [("user", Json.str "John")])

def producerPosts : Producer :=
  fun _ => ProducerResult.ok (some [("posts", Json.num 1)])

def producerDown : Producer :=
  fun _ => ProducerResult.failed "Notification service unavailable"

def reqParallel : Req := { method := "GET", path := "/parallel" }

/-- Witness for claim C4 with two succeeding producers around one failing
producer. -/
theorem parallel_fanout_merges_successes_skips_failure_witness :
    producerDown reqParallel =
      ProducerResult.failed "Notification service unavailable" ∧
    (∀ p ∈ [producerUser], (okData (p reqParallel)).isSome = true) ∧
    (∀ p ∈ [producerPosts], (okData (p reqParallel)).isSome = true) ∧
    (parallelAct ([producerUser] ++ producerDown :: [producerPosts]) reqParallel =
      StepAct.send
        (runParallel ([producerUser] ++ producerDown :: [producerPosts]) reqParallel).1 ∧
    (runParallel ([producerUser] ++ producerDown :: [producerPosts]) reqParallel).1.status
      = 200 ∧
    (runParallel ([producerUser] ++ producerDown :: [producerPosts]) reqParallel).1.body =
      Json.obj (mergeAll
        (([producerUser].map fun p => p reqParallel).filterMap okData ++
         ([producerPosts].map fun p => p reqParallel).filterMap okData)) ∧
    (∀ k, hasKey (mergeAll
          (([producerUser].map fun p => p reqParallel).filterMap okData ++
           ([producerPosts].map fun p => p reqParallel).filterMap okData)) k ↔
        ∃ o ∈ ([producerUser].map fun p => p reqParallel).filterMap okData ++
          ([producerPosts].map fun p => p reqParallel).filterMap okData, hasKey o k) ∧
    (runParallel ([producerUser] ++ producerDown :: [producerPosts]) reqParallel).2 =
      ["Notification service unavailable"]) :=
  have hbad : producerDown reqParallel =
      ProducerResult.failed "Notification service unavailable" := rfl
  have hpre : ∀ p ∈ [producerUser], (okData (p reqParallel)).isSome = true := by
    intro p hp
    rw [List.mem_singleton] at hp
    subst hp
    rfl
  have hpost : ∀ p ∈ [producerPosts], (okData (p reqParallel)).isSome = true := by
    intro p hp
    rw [List.mem_singleton] at hp
    subst hp
    rfl
  ⟨hbad, hpre, hpost,
    parallel_fanout_merges_successes_skips_failure reqParallel [producerUser]
      [producerPosts] producerDown "Notification service unavailable" hbad hpre hpost⟩

def producerA1 : Producer := fun _ => ProducerResult.ok (some [("a", Json.num 1)])

def producerA2 : Producer := fun _ => ProducerResult.ok (some [("a", Json.num 2)])

/-- Claim C5: the fan-out merge is a shallow merge in producer input order
where later producers override earlier ones on key collision (the spread
of each settled object over the accumulator): assigning a key always
overrides an earlier binding of that key, and for two producers returning
the object a maps-to 1 and the object a maps-to 2 in that registration
order, the merged JSON response binds a to 2. -/
theorem parallel_merge_later_wins (req : Req) (acc : List (String × Json))
    (k : String) (v : Json) :
    getKey (setKey acc k v) k = some v ∧
    (runParallel [producerA1, producerA2] req).1.body =
      Json.obj [("a", Json.num 2)] ∧
    getKey [("a", Json.num 2)] "a" = some (Json.num 2) :=
  ⟨getKey_setKey_self acc k v, rfl, rfl⟩

/-- Mutable state of one Response Context: the finished flag, whether
headers reached the wire, the wire-visible response, the warning log, and
the number of file sends whose asynchronous callbacks are still pending. -/
structure ResState where
  neoFinished : Bool
  headersSent : Bool
  wire : Option SentResp
  warnings : List String
  inFlight : Nat

/-- A Response Context freshly paired with its Request Context. -/
def freshRes : ResState :=
  { neoFinished := false, headersSent := false, wire := none,
    warnings := [], inFlight := 0 }

/-- The centralized response guard exactly as in lib/neoapi.js (also
excerpted in the optimization notes): a call is blocked when the finished
flag is set or headers were already sent; a warning is logged, and the
finished flag set, only when the flag was not yet set. -/
def guardResponse (res : ResState) (methodName : String) : Bool × ResState :=
  if res.neoFinished || res.headersSent then
    if !res.neoFinished then
      (true,
        { res with
            neoFinished := true,
            warnings :=
              res.warnings ++ [methodName ++ " called after response sent"] })
    else (true, res)
  else (false, res)

/-- finishResponse from lib/neoapi.js: guard, then mark the response
finished, write the head and end the body, which puts the payload on the
wire with headers sent. -/
def finishResponse (res : ResState) (p : SentResp) : ResState :=
  let g := guardResponse res "finishResponse"
  if g.1 then g.2
  else { g.2 with neoFinished := true, headersSent := true, wire := some p }

/-- res.send: computes its body and content type and defers entirely to
finishResponse (which performs the guard). -/
def resSend (res : ResState) (p : SentResp) : ResState :=
  finishResponse res p

/-- res.json: its own guard first, then finishResponse on the serialized
body. -/
def resJson (res : ResState) (p : SentResp) : ResState :=
  let g := guardResponse res "res.json"
  if g.1 then g.2
  else finishResponse g.2 p

/-- res.sendStatus: guard, then mark finished, set the status and end with
an empty body. -/
def resSendStatus (res : ResState) (code : Nat) : ResState :=
  let g := guardResponse res "res.sendStatus"
  if g.1 then g.2
  else
    { g.2 with
        neoFinished := true,
        headersSent := true,
        wire := some { status := code, body := Json.null } }

/-- res.redirect: guard, then mark finished, set the status and location
header and end with an empty body. -/
def resRedirect (res : ResState) (code : Nat) : ResState :=
  let g := guardResponse res "res.redirect"
  if g.1 then g.2
  else
    { g.2 with
        neoFinished := true,
        headersSent := true,
        wire := some { status := code, body := Json.null } }

/-- The synchronous part of res.sendFile: only the guard runs before the
file-system work is scheduled; the finished flag is not set here, the
response is written (or abandoned) in the later asynchronous callbacks. -/
def resSendFileCall (res : ResState) : ResState :=
  let g := guardResponse res "res.sendFile"
  if g.1 then g.2
  else { g.2 with inFlight := g.2.inFlight + 1 }

/-- The stream-open callback of a pending res.sendFile: if the response
meanwhile finished or headers were sent, the stream is destroyed and
nothing is written; otherwise the head is written and the file body piped,
putting the payload on the wire (the finished flag follows only with the
later finish event). -/
def fileOpenStep (res : ResState) (p : SentResp) : ResState :=
  if res.inFlight = 0 then res
  else if res.neoFinished || res.headersSent then
    { res with inFlight := res.inFlight - 1 }
  else
    { res with
        headersSent := true,
        wire := some p,
        inFlight := res.inFlight - 1 }

/-- The access-error or stream-error callback of a pending res.sendFile:
the finished flag is set first and an error text send is attempted, which
the guard inside finishResponse then blocks, so nothing reaches the
wire. -/
def fileErrStep (res : ResState) (p : SentResp) : ResState :=
  if res.inFlight = 0 then res
  else resSend { res with neoFinished := true, inFlight := res.inFlight - 1 } p

/-- The finish or close cleanup of res.sendFile: the finished flag is
set. -/
def fileFinishStep (res : ResState) : ResState :=
  { res with neoFinished := true }

/-- One atomic step of the single-threaded execution touching the Response
Context: a call to a synchronous terminal helper, the synchronous part of
a file send, or one of the asynchronous file-send callbacks delivered by
the event loop. -/
inductive SendOp where
  | jsonCall (p : SentResp)
  | sendCall (p : SentResp)
  | statusCall (code : Nat)
  | redirectCall (code : Nat)
  | fileCall
  | fileOpen (p : SentResp)
  | fileErr (p : SentResp)
  | fileFinish

/-- Apply one step to the Response Context. -/
def applyOp (res : ResState) : SendOp → ResState
  | SendOp.jsonCall p => resJson res p
  | SendOp.sendCall p => resSend res p
  | SendOp.statusCall c => resSendStatus res c
  | SendOp.redirectCall c => resRedirect res c
  | SendOp.fileCall => resSendFileCall res
  | SendOp.fileOpen p => fileOpenStep res p
  | SendOp.fileErr p => fileErrStep res p
  | SendOp.fileFinish => fileFinishStep res

/-- Apply a sequence of steps in order. -/
def applyOps (res : ResState) : List SendOp → ResState
  | [] => res
  | op :: rest => applyOps (applyOp res op) rest

def firstSendState : ResState :=
  resJson freshRes { status := 200, body := Json.obj [("ok", Json.num 1)] }

def secondSendState : ResState :=
  resJson firstSendState { status := 201, body := Json.obj [("again", Json.num 2)] }

/-- Counterexample to claim C2: after a successful terminal send on a
fresh Response Context, a second terminal call is indeed a no-op that
leaves the whole state (and the wire response) unchanged, but it is not
reported: guardResponse only logs when the finished flag is unset while
headers were sent, and a completed framework send sets the flag, so the
warning log stays empty after the second call. -/
theorem double_send_is_silent :
    secondSendState = firstSendState ∧
    firstSendState.wire =
      some { status := 200, body := Json.obj [("ok", Json.num 1)] } ∧
    secondSendState.warnings = [] :=
  ⟨rfl, rfl, rfl⟩

theorem guardResponse_headersSent (res : ResState) (m : String)
    (hh : res.headersSent = true) :
    (guardResponse res m).1 = true ∧
    (guardResponse res m).2.headersSent = true ∧
    (guardResponse res m).2.wire = res.wire := by
  by_cases hn : res.neoFinished <;> simp [guardResponse, hh, hn]

theorem applyOp_preserves_sent (res : ResState) (p : SentResp) (op : SendOp)
    (hh : res.headersSent = true) (hw : res.wire = some p) :
    (applyOp res op).headersSent = true ∧ (applyOp res op).wire = some p := by
  cases op with
  | jsonCall q =>
    obtain ⟨h1, h2, h3⟩ := guardResponse_headersSent res "res.json" hh
    simp [applyOp, resJson, h1, h2, h3, hw]
  | sendCall q =>
    obtain ⟨h1, h2, h3⟩ := guardResponse_headersSent res "finishResponse" hh
    simp [applyOp, resSend, finishResponse, h1, h2, h3, hw]
  | statusCall c =>
    obtain ⟨h1, h2, h3⟩ := guardResponse_headersSent res "res.sendStatus" hh
    simp [applyOp, resSendStatus, h1, h2, h3, hw]
  | redirectCall c =>
    obtain ⟨h1, h2, h3⟩ := guardResponse_headersSent res "res.redirect" hh
    simp [applyOp, resRedirect, h1, h2, h3, hw]
  | fileCall =>
    obtain ⟨h1, h2, h3⟩ := guardResponse_headersSent res "res.sendFile" hh
    simp [applyOp, resSendFileCall, h1, h2, h3, hw]
  | fileOpen q =>
    by_cases hf : res.inFlight = 0 <;>
      simp [applyOp, fileOpenStep, hf, hh, hw]
  | fileErr q =>
    by_cases hf : res.inFlight = 0
    · simp [applyOp, fileErrStep, hf, hh, hw]
    · simp [applyOp, fileErrStep, hf, resSend, finishResponse, guardResponse,
        hh, hw]
  | fileFinish =>
    simp [applyOp, fileFinishStep, hh, hw]

theorem applyOps_preserves_sent (res : ResState) (p : SentResp)
    (ops : List SendOp)
    (hh : res.headersSent = true) (hw : res.wire = some p) :
    (applyOps res ops).headersSent = true ∧ (applyOps res ops).wire = some p := by
  induction ops generalizing res with
  | nil => exact ⟨hh, hw⟩
  | cons op rest ih =>
    obtain ⟨h1, h2⟩ := applyOp_preserves_sent res p op hh hw
    rw [applyOps]
    exact ih _ h1 h2

/-- Claim C2 amended: at most one terminal send succeeds per Response
Context: a first JSON send on a fresh Response Context puts its payload
on the wire, and afterwards no sequence of terminal calls or file-send
callbacks alters the wire response or unsets the sent headers (every such
step is a guarded no-op that does not throw past the request boundary);
the repeated terminal call is silently ignored rather than reported,
since the guard logs only when headers were sent while the finished flag
was still unset. -/
theorem first_send_wins_later_sends_silent_noops (p : SentResp)
    (ops : List SendOp) :
    resJson freshRes p =
      { neoFinished := true, headersSent := true, wire := some p,
        warnings := [], inFlight := 0 } ∧
    (applyOps (resJson freshRes p) ops).wire = some p ∧
    (applyOps (resJson freshRes p) ops).headersSent = true := by
  have hstart : resJson freshRes p =
      { neoFinished := true, headersSent := true, wire := some p,
        warnings := [], inFlight := 0 } := rfl
  obtain ⟨h1, h2⟩ := applyOps_preserves_sent (resJson freshRes p) p ops rfl rfl
  exact ⟨hstart, h2, h1⟩

/-- The closed set of lifecycle hook names, from the HookName declaration
in the type definitions. -/
inductive HookName where
  | onRequest
  | preHandler
  | onResponse
  | onError
  | onListen
deriving DecidableEq, Repr

/-- Abstract timing shape of one hook handler in the sequential await
loop of _runHooks: it records its observable timestamp logOffset ticks
after it starts, settles dur ticks after it starts, and may settle by
throwing (fails), which the loop rethrows after logging, stopping the
remaining handlers of that invocation. -/
structure HookHandler where
  logOffset : Nat
  dur : Nat
  fails : Bool
deriving DecidableEq, Repr

/-- The handler loop of _runHooks: the handlers registered for one name
are awaited one at a time in registration order, each starting exactly
when the previous one settles; a throwing handler ends the loop.  Returns,
per executed handler in order, its start, log and settle times. -/
def runHooks : List HookHandler → Nat → List (Nat × Nat × Nat)
  | [], _ => []
  | h :: hs, t =>
    (t, t + h.logOffset, t + h.dur) ::
      (if h.fails then [] else runHooks hs (t + h.dur))

theorem runHooks_start_bounds (hs : List HookHandler) (t : Nat) :
    ∀ x ∈ runHooks hs t, t ≤ x.1 ∧ x.1 ≤ x.2.1 := by
  induction hs generalizing t with
  | nil => simp [runHooks]
  | cons h rest ih =>
    intro x hx
    rw [runHooks, List.mem_cons] at hx
    cases hx with
    | inl he =>
      subst he
      exact ⟨le_refl t, Nat.le_add_right t h.logOffset⟩
    | inr hm =>
      by_cases hf : h.fails = true
      · rw [if_pos hf] at hm
        cases hm
      · rw [if_neg hf] at hm
        obtain ⟨hx1, hx2⟩ := ih (t + h.dur) x hm
        exact ⟨le_trans (Nat.le_add_right t h.dur) hx1, hx2⟩

theorem runHooks_sequential (hs : List HookHandler) (t : Nat)
    (hwf : ∀ h ∈ hs, h.logOffset ≤ h.dur) :
    (runHooks hs t).Pairwise (fun a b => a.2.2 ≤ b.1 ∧ a.2.1 ≤ b.2.1) := by
  induction hs generalizing t with
  | nil => simp [runHooks]
  | cons h rest ih =>
    rw [runHooks]
    by_cases hf : h.fails = true
    · rw [if_pos hf]
      simp
    · rw [if_neg hf]
      refine List.Pairwise.cons ?_
        (ih (t + h.dur) (fun x hx => hwf x (List.mem_cons_of_mem _ hx)))
      intro b hb
      obtain ⟨hb1, hb2⟩ := runHooks_start_bounds rest (t + h.dur) b hb
      have hlo : h.logOffset ≤ h.dur := hwf h (List.mem_cons_self ..)
      exact ⟨hb1, le_trans (Nat.add_le_add_left hlo t) (le_trans hb1 hb2)⟩

/-- Claim C6: for every hook name in the closed set and every request, the
handlers registered for that name run strictly in registration order and
are awaited sequentially: pairwise along the registration order, an
earlier handler settles no later than a later handler starts, and the
earlier handler's observed timestamp is at most the later one's (so for
two response-sent hooks registered in order, the first logged timestamp is
at most the second). -/
theorem hooks_sequential_registration_order
    (registry : HookName → List HookHandler) (name : HookName) (t0 : Nat)
    (hwf : ∀ h ∈ registry name, h.logOffset ≤ h.dur) :
    (runHooks (registry name) t0).Pairwise
      (fun a b => a.2.2 ≤ b.1 ∧ a.2.1 ≤ b.2.1) :=
  runHooks_sequential (registry name) t0 hwf

def hooksDemo : HookName → List HookHandler
  | HookName.onResponse =>
    [{ logOffset := 0, dur := 1, fails := false },
     { logOffset := 2, dur := 5, fails := false }]
  | _ => []

/-- Witness for claim C6 with two hooks registered on the response-sent
point. -/
theorem hooks_sequential_registration_order_witness :
    (∀ h ∈ hooksDemo HookName.onResponse, h.logOffset ≤ h.dur) ∧
    (runHooks (hooksDemo HookName.onResponse) 0).Pairwise
      (fun a b => a.2.2 ≤ b.1 ∧ a.2.1 ≤ b.2.1) :=
  have hwf : ∀ h ∈ hooksDemo HookName.onResponse, h.logOffset ≤ h.dur := by
    decide
  ⟨hwf, hooks_sequential_registration_order hooksDemo HookName.onResponse 0 hwf⟩

/-- Shape of an argument passed to error-handler registration: whether it
is a function and its declared parameter count. -/
structure FnArg where
  isFunction : Bool
  paramCount : Nat
deriving DecidableEq, Repr

/-- Registration-surface state for the terminal error handler: the active
handler and the warning log. -/
structure AppErrState where
  activeHandler : Option Nat
  warnings : List String
deriving DecidableEq, Repr

/-- Error-handler registration as in app.error of lib/neoapi.js (also
excerpted in the optimization notes): a non-function argument throws at
registration time; a function whose declared parameter count differs from
three only logs a warning; in every non-throwing case the handler becomes
the active terminal error handler (last registration wins). -/
def registerErrorHandler (st : AppErrState) (arg : FnArg) (handlerId : Nat) :
    Except String AppErrState :=
  if !arg.isFunction then
    Except.error "Error handler must be a function accepting (err, req, res)!"
  else
    let st1 :=
      if arg.paramCount ≠ 3 then
        { st with warnings := st.warnings ++
          ["Error handler should accept 3 parameters (err, req, res)"] }
      else st
    Except.ok { st1 with activeHandler := some handlerId }

/-- Claim C10: registering a terminal error handler rejects only
non-function arguments with an immediate registration-time exception; for
every function argument whose declared parameter count differs from three,
registration still succeeds, only a warning is logged, and the registered
handler becomes the active terminal error handler. -/
theorem error_handler_registration_validation
    (st : AppErrState) (arg : FnArg) (handlerId : Nat) :
    (arg.isFunction = false →
      registerErrorHandler st arg handlerId = Except.error
        "Error handler must be a function accepting (err, req, res)!") ∧
    (arg.isFunction = true →
      registerErrorHandler st arg handlerId =
        Except.ok
          { activeHandler := some handlerId,
            warnings :=
              if arg.paramCount ≠ 3 then
                st.warnings ++
                  ["Error handler should accept 3 parameters (err, req, res)"]
              else st.warnings }) := by
  constructor
  · intro h
    simp [registerErrorHandler, h]
  · intro h
    by_cases hc : arg.paramCount = 3 <;> simp [registerErrorHandler, h, hc]

/-- Witness for claim C10: a non-function argument throws, and a
two-parameter function registers with a warning and becomes the active
handler. -/
theorem error_handler_registration_validation_witness :
    (registerErrorHandler { activeHandler := none, warnings := [] }
        { isFunction := false, paramCount := 3 } 1 = Except.error
      "Error handler must be a function accepting (err, req, res)!") ∧
    (registerErrorHandler { activeHandler := none, warnings := [] }
        { isFunction := true, paramCount := 2 } 5 =
      Except.ok
        { activeHandler := some 5,
          warnings :=
            ["Error handler should accept 3 parameters (err, req, res)"] }) := by
  constructor
  · exact (error_handler_registration_validation
      { activeHandler := none, warnings := [] }
      { isFunction := false, paramCount := 3 } 1).1 rfl
  · have h := (error_handler_registration_validation
      { activeHandler := none, warnings := [] }
      { isFunction := true, paramCount := 2 } 5).2 rfl
    simpa using h

end ZyroSpec
